import Mathlib

/-!
Verification development for the signal-pager repository.

The definitions below are a shallow embedding of `src/state.rs` and
`src/signal.rs`. Pure Rust functions become Lean functions; the stateful
maintenance loop and the hand-written `poll` implementations become explicit
state-transition functions; machine integers (`u32` versions) are `Nat` with
an explicit `% 2^32` where the source can wrap; fallible operations return
`Except` or `Option`.

The external crates `tar`, `flate2` (gzip) and `chacha20poly1305` are not
part of this repository; where a definition stands in for one of them its
doc comment starts with `Modelled from the spec:` and it is a genuine
invertible codec satisfying exactly the properties the spec assigns to the
crate, so that the composition in `pack_state` / `Inner.load` stays faithful
to the source.
-/

namespace SignalPager

/-- Byte strings. Unix paths and file contents are byte sequences (Rust
`PathBuf` / `Vec<u8>`); we model a byte as a `Nat`. -/
abbrev Bytes := List Nat

/-- A directory tree as the archive sees it: a list of
(relative path, file contents) pairs. -/
abbrev DirTree := List (Bytes × Bytes)

/-- Modelled from the spec: the `tar` crate's archive format (external
crate, not in this repository). One archive entry: the relative path and
the file contents, each length-prefixed so the encoding is injective. -/
def tarEntry : Bytes × Bytes → Bytes
  | (p, c) => p.length :: (p ++ (c.length :: c))

/-- Modelled from the spec: `tar::Builder::append_dir_all` — recursively
archives the directory's contents preserving relative paths. The archive is
the entry count followed by the concatenated entries. -/
def tarPack (d : DirTree) : Bytes :=
  d.length :: (d.map tarEntry).flatten

/-- Read one length-prefixed block from a byte string. -/
def readBlock : Bytes → Option (Bytes × Bytes)
  | [] => none
  | n :: rest => if n ≤ rest.length then some (rest.take n, rest.drop n) else none

/-- Read `n` archive entries. -/
def readEntries : Nat → Bytes → Option DirTree
  | 0, _ => some []
  | n + 1, b =>
    match readBlock b with
    | none => none
    | some (p, b1) =>
      match readBlock b1 with
      | none => none
      | some (c, b2) =>
        match readEntries n b2 with
        | none => none
        | some d => some ((p, c) :: d)

/-- Modelled from the spec: `tar::Archive::unpack` — extracts the archive
back into a directory tree. -/
def tarUnpack : Bytes → Option DirTree
  | [] => none
  | n :: rest => readEntries n rest

/-- Modelled from the spec: gzip compression (external `flate2` crate),
an invertible byte-stream encoding with an integrity check on decode. -/
def gzipCompress (b : Bytes) : Bytes := b.length :: b

/-- Modelled from the spec: gzip decompression (external `flate2` crate). -/
def gzipDecompress : Bytes → Option Bytes
  | [] => none
  | n :: rest => if rest.length = n then some rest else none

/-- Modelled from the spec: the ChaCha20 keystream at offset `i` for a given
key and nonce (external `chacha20poly1305` crate). -/
def keystream (key nonce i : Nat) : Nat := key + nonce + i

/-- Encrypt the message body by adding the keystream position-wise,
starting at offset `i`. -/
def encBody (key nonce : Nat) : Nat → Bytes → Bytes
  | _, [] => []
  | i, b :: bs => (b + keystream key nonce i) :: encBody key nonce (i + 1) bs

/-- Decrypt the message body by subtracting the keystream position-wise. -/
def decBody (key nonce : Nat) : Nat → Bytes → Bytes
  | _, [] => []
  | i, b :: bs => (b - keystream key nonce i) :: decBody key nonce (i + 1) bs

/-- Poly1305 authentication tags are 16 bytes. -/
def TAG_SIZE : Nat := 16

/-- Modelled from the spec: the Poly1305 authentication tag over key, nonce
and message. -/
def polyTag (key nonce : Nat) (m : Bytes) : Bytes :=
  List.replicate TAG_SIZE (key + nonce + m.sum)

/-- Modelled from the spec: authenticated encryption
(`ChaCha20Poly1305::encrypt`): ciphertext body followed by the tag. -/
def chachaEncrypt (key nonce : Nat) (m : Bytes) : Bytes :=
  encBody key nonce 0 m ++ polyTag key nonce m

/-- Modelled from the spec: authenticated decryption
(`ChaCha20Poly1305::decrypt`): splits off the 16-byte tag, decrypts the
body, and fails unless the recomputed tag matches. -/
def chachaDecrypt (key nonce : Nat) (c : Bytes) : Option Bytes :=
  if c.length < TAG_SIZE then none
  else
    let body := c.take (c.length - TAG_SIZE)
    let tag := c.drop (c.length - TAG_SIZE)
    let m := decBody key nonce 0 body
    if tag = polyTag key nonce m then some m else none

/-- The nonce size used in `state.rs` (`let ns = 12`). -/
def NONCE_SIZE : Nat := 12

/-- The fresh random nonce rendered as its 12-byte wire form
(`nonce.as_slice()` in `pack_state`). -/
def nonceBytes (nonce : Nat) : Bytes := List.replicate NONCE_SIZE nonce

/-- Errors of `SignalStateError` in `state.rs`. -/
inductive SignalStateError where
  | S3Error
  | IOError
  | CryptoError
  | NoStateAvailable
  | CiphertextTooShort
  | InvalidKeyLength
deriving DecidableEq, Repr

/-- The `Inner` struct of `state.rs`: the loaded Working Copy with its
version, directory contents and dirty flag. The Rust `AtomicBool` becomes a
plain `Bool` in this sequential embedding; the atomic orderings are only
visibility annotations. -/
structure Inner where
  version : Nat
  dir : DirTree
  dirtied : Bool
deriving DecidableEq, Repr

/-- `pack_state` from `state.rs`: tar the directory, gzip it, encrypt under
the key with a fresh nonce, and return `nonce || ciphertext`. The random
nonce generation is modelled by taking the nonce as an explicit argument. -/
def pack_state (key nonce : Nat) (d : DirTree) : Bytes :=
  nonceBytes nonce ++ chachaEncrypt key nonce (gzipCompress (tarPack d))

/-- `Inner::load` from `state.rs`, with the blob already fetched from the
bucket (the `get_object` network call is modelled by passing its result):
reject blobs not longer than the nonce, split off the nonce prefix,
decrypt-and-authenticate, gunzip, untar into a fresh Working Copy with a
clear dirty flag. -/
def Inner.load (key version : Nat) (blob : Bytes) : Except SignalStateError Inner :=
  if blob.length ≤ NONCE_SIZE then .error .CiphertextTooShort
  else
    let nonce := (blob.take NONCE_SIZE).headD 0
    match chachaDecrypt key nonce (blob.drop NONCE_SIZE) with
    | none => .error .CryptoError
    | some tar_gz =>
      match gzipDecompress tar_gz with
      | none => .error .IOError
      | some t =>
        match tarUnpack t with
        | none => .error .IOError
        | some d => .ok ⟨version, d, false⟩

/-- `u32` wraps at `2^32`. -/
def U32_MOD : Nat := 4294967296

/-- Decimal accumulation over a character list: fails at the first
non-digit. -/
def digitsToNat : List Char → Nat → Option Nat
  | [], acc => some acc
  | c :: cs, acc =>
    if c.isDigit then digitsToNat cs (acc * 10 + (c.toNat - 48)) else none

/-- `obj.key.parse::<u32>()` from the maintenance loop: Rust's `u32`
parsing accepts an optional leading `+`, then one or more decimal digits,
and fails on overflow past `u32::MAX`. -/
def parseU32 (s : String) : Option Nat :=
  let cs := if s.data.head? = some '+' then s.data.tail else s.data
  match cs with
  | [] => none
  | _ :: _ =>
    match digitsToNat cs 0 with
    | some n => if n < U32_MOD then some n else none
    | none => none

/-- The parsed versions of a bucket listing, in listing order
(`filter_map(|obj| obj.key.parse::<u32>().ok())`). -/
def parsedVersions (keys : List String) : List Nat :=
  keys.filterMap parseU32

/-- `best_version` from the maintenance loop: the maximum parsed version of
the listing, if any. -/
def bestVersion (keys : List String) : Option Nat :=
  (parsedVersions keys).max?

/-- `delete_list` from the maintenance loop: in the same pass over the
listing, every parsed version strictly below
`seen_version.saturating_sub(20)` is collected for deletion (Nat
subtraction is saturating). -/
def deleteList (seen : Nat) (keys : List String) : List Nat :=
  (parsedVersions keys).filter (fun v => decide (v < seen - 20))

/-- The `MaintenanceAction` enum of `state.rs`. -/
inductive MaintenanceAction where
  | NoAction
  | Flush
  | Reload (v : Nat)
deriving DecidableEq, Repr

/-- The outcome of the decision step: either an action, or the fatal
`return Err(NoStateAvailable)` that terminates the maintenance task. -/
inductive MaintDecision where
  | act (a : MaintenanceAction)
  | fatal
deriving DecidableEq, Repr

/-- The decision `match` of the maintenance loop (`state.rs`, the
`let action = match *shared.inner.read().await` block), as a function of
the Working Copy observed under the read lock and of `best_version`. -/
def decideAction (wc : Option Inner) (best : Option Nat) : MaintDecision :=
  match wc with
  | none =>
    match best with
    | some v => .act (.Reload v)
    | none => .fatal
  | some inner =>
    if inner.dirtied then .act .Flush
    else
      match best with
      | some v => if inner.version ≠ v then .act (.Reload v) else .act .NoAction
      | none => .act .NoAction

/-- `Inner::save` from `state.rs`: increment the in-memory version (u32,
wrapping), then attempt the blob write under the new key. The network
outcome is modelled by the `ok` argument. On success the key `version + 1`
was written and the dirty flag is stored `false`; on failure (`?` returns
before the store) the dirty flag is untouched — but the version stays
incremented either way, because `self.version += 1` precedes the write.
Returns the new state and the key written, if any. -/
def Inner.save (ok : Bool) (i : Inner) : Inner × Option Nat :=
  let v := (i.version + 1) % U32_MOD
  if ok then ({ i with version := v, dirtied := false }, some v)
  else ({ i with version := v }, none)

/-- A sequence of `Inner::save` attempts (one per Flush cycle), each with
its network outcome; returns the final state and the list of keys written
to the blob store, in order. -/
def runSaves : List Bool → Inner → Inner × List Nat
  | [], i => (i, [])
  | ok :: rest, i =>
    let r := Inner.save ok i
    let r2 := runSaves rest r.1
    (r2.1, r.2.toList ++ r2.2)

/-- The `MaintenanceAction::Reload` arm of the maintenance loop: under the
write lock the dirty flag is re-checked; only if the Working Copy is absent
or clean is `Inner::load` run, and only on its success is the Working Copy
replaced and `seen_version` updated. `blob` is the result of the bucket
`get_object` call inside `Inner::load`. Returns the Working Copy slot and
`seen_version` after the arm. -/
def reloadArm (key : Nat) (wc : Option Inner) (blob : Except SignalStateError Bytes)
    (seen v : Nat) : Option Inner × Nat :=
  if (match wc with | some i => i.dirtied | none => false) then (wc, seen)
  else
    match (match blob with
           | .error e => .error e
           | .ok b => Inner.load key v b : Except SignalStateError Inner) with
    | .ok r => (some r, v)
    | .error _ => (wc, seen)

/-- The events that can touch the Working Copy slot while the maintenance
future is running: a reader obtaining the path through `StateGuard::path`
(marks dirty), a Flush cycle (`Inner::save` under the write lock), and a
Reload cycle (the `Reload` arm under the write lock). The cleanup step's
`inner.take()` is deliberately not here: cleanup is polled only after the
maintenance future has been abandoned (see `compositePoll`). -/
inductive StoreEvent where
  | readerAccess
  | flushAttempt (ok : Bool)
  | reloadAttempt (key : Nat) (blob : Except SignalStateError Bytes) (v : Nat)

/-- Effect of one event on the Working Copy slot. -/
def applyEvent (wc : Option Inner) : StoreEvent → Option Inner
  | .readerAccess => wc.map (fun i => { i with dirtied := true })
  | .flushAttempt ok => wc.map (fun i => (Inner.save ok i).1)
  | .reloadAttempt key blob v => (reloadArm key wc blob 0 v).1

/-- Effect of a sequence of events on the Working Copy slot. -/
def applyEvents (wc : Option Inner) : List StoreEvent → Option Inner
  | [] => wc
  | e :: es => applyEvents (applyEvent wc e) es

/-- Where the maintenance future is suspended when the composite future is
polled: at an iteration boundary (the interval sleep / top of the loop), in
the middle of a Flush or Reload, or in the listing-failure backoff sleep. -/
inductive MaintPos where
  | iterBoundary
  | midFlush
  | midReload
  | listingBackoff
deriving DecidableEq, Repr

/-- The state of the `SignalStateMaintenance` composite future:
`running = some pos` while the `SignalStateMaintenanceRunning` pair is
still present (with the maintenance future suspended at `pos`), `none`
after `this.running.set(None)`; `cleanupBegun` records that the cleanup
future has been polled at least once. -/
structure CompState where
  running : Option MaintPos
  cleanupBegun : Bool
deriving DecidableEq, Repr

/-- One call to `<SignalStateMaintenance as Future>::poll` (`state.rs`):
if `running` is present and the stopper polls `Pending`, the poll returns
the maintenance future's poll (modelled by advancing its position with
`maintStep`); otherwise `running` is set to `None` and the cleanup future
is polled. `stopperReady` is whether the shutdown signal has resolved. -/
def compositePoll (stopperReady : Bool) (maintStep : MaintPos → MaintPos)
    (s : CompState) : CompState :=
  match s.running with
  | some pos =>
    if stopperReady then { running := none, cleanupBegun := true }
    else { s with running := some (maintStep pos) }
  | none => { s with cleanupBegun := true }

/-- The spec's §4.3/§5 cancellation claim, formalised over `compositePoll`:
if shutdown resolves while the maintenance future is suspended anywhere
other than an iteration boundary (i.e. a Flush or Reload is in flight),
that poll must not begin cleanup — the in-flight action would have to
complete first. -/
def shutdownWaitsForInflight : Prop :=
  ∀ (f : MaintPos → MaintPos) (s : CompState) (p : MaintPos),
    s.running = some p → p ≠ MaintPos.iterBoundary → s.cleanupBegun = false →
    (compositePoll true f s).cleanupBegun = false

/-- Rust's `std::process::ExitStatus`: the process exited with a code, or
was terminated by a signal. -/
inductive ExitStatus where
  | exited (code : Int)
  | signalled
deriving DecidableEq, Repr

/-- `ExitStatus::success()`: true exactly for exit code 0. -/
def ExitStatus.success : ExitStatus → Bool
  | .exited c => c == 0
  | .signalled => false

/-- `ExitStatus::code()`: `Some(code)` for a normal exit, `None` when the
process was terminated by a signal. -/
def ExitStatus.code : ExitStatus → Option Int
  | .exited c => some c
  | .signalled => none

/-- Errors of `SignalRunnerError` in `signal.rs`. -/
inductive SignalRunnerError where
  | NoStateAvailable
  | IOError
  | JoinError
  | SignalFailed (code : Option Int)
deriving DecidableEq, Repr

/-- `SignalRunner::send` from `signal.rs`, as a function of the Working
Copy path obtained from the State Store (`None` when no Working Copy is
loaded) and of the outcome of spawning and driving the subprocess (spawn
and join failures arrive as errors, otherwise the exit status): with no
Working Copy it fails immediately with `NoStateAvailable`; otherwise exit
status 0 is success and any other status is `SignalFailed(status.code())`. -/
def send (wc : Option Bytes) (driver : Except SignalRunnerError ExitStatus) :
    Except SignalRunnerError Unit :=
  match wc with
  | none => .error .NoStateAvailable
  | some _ =>
    match driver with
    | .error e => .error e
    | .ok status =>
      if status.success then .ok () else .error (.SignalFailed status.code)

/-- The poll state of a spawned task (`JoinHandle`). -/
inductive TaskPoll (α : Type) where
  | pending
  | ready (a : α)
deriving DecidableEq, Repr

/-- One call to `<ChildDriver as Future>::poll` (`signal.rs`), as a
function of the current polls of the two `spawn_blocking` handles:
`writer` is `none` if the stdin-writer slot was already cleared (or the
child had no stdin), otherwise its poll result; `waiter` is the poll of the
exit-status task. The writer slot is cleared once the writer is ready —
its result is dropped — and the overall output is exactly the waiter's
poll. Returns the new writer slot and the poll returned to the caller. -/
def childDriverPoll {W R : Type} (writer : Option (TaskPoll W)) (waiter : TaskPoll R) :
    Option (TaskPoll W) × TaskPoll R :=
  let writerAfter := match writer with
    | some (.ready _) => none
    | w => w
  (writerAfter, waiter)

/-! ## Lemmas about the codec -/

theorem readBlock_cons (x r : Bytes) : readBlock (x.length :: (x ++ r)) = some (x, r) := by
  simp [readBlock, List.length_append, Nat.le_add_right, List.take_left, List.drop_left]

theorem readEntries_encode (d : DirTree) :
    readEntries d.length ((d.map tarEntry).flatten) = some d := by
  induction d with
  | nil => rfl
  | cons e d ih =>
    obtain ⟨p, c⟩ := e
    have hshape : (d.map tarEntry).flatten = (d.map tarEntry).flatten := rfl
    show readEntries (d.length + 1)
      ((tarEntry (p, c) :: d.map tarEntry).flatten) = some ((p, c) :: d)
    have h1 : (tarEntry (p, c) :: d.map tarEntry).flatten
        = p.length :: (p ++ (c.length :: (c ++ (d.map tarEntry).flatten))) := by
      simp [tarEntry, List.append_assoc]
    rw [h1]
    show (match readBlock (p.length :: (p ++ (c.length :: (c ++ (d.map tarEntry).flatten)))) with
      | none => none
      | some (p', b1) =>
        match readBlock b1 with
        | none => none
        | some (c', b2) =>
          match readEntries d.length b2 with
          | none => none
          | some d' => some ((p', c') :: d')) = some ((p, c) :: d)
    simp only [readBlock_cons, ih]

theorem tarUnpack_tarPack (d : DirTree) : tarUnpack (tarPack d) = some d := by
  simpa [tarPack, tarUnpack] using readEntries_encode d

theorem gzipDecompress_gzipCompress (b : Bytes) :
    gzipDecompress (gzipCompress b) = some b := by
  simp [gzipCompress, gzipDecompress]

theorem decBody_encBody (key nonce : Nat) (m : Bytes) :
    ∀ i, decBody key nonce i (encBody key nonce i m) = m := by
  induction m with
  | nil => intro i; rfl
  | cons b bs ih => intro i; simp [encBody, decBody, ih (i + 1)]

theorem encBody_length (key nonce : Nat) (m : Bytes) :
    ∀ i, (encBody key nonce i m).length = m.length := by
  induction m with
  | nil => intro i; rfl
  | cons b bs ih => intro i; simp [encBody, ih (i + 1)]

theorem chachaDecrypt_chachaEncrypt (key nonce : Nat) (m : Bytes) :
    chachaDecrypt key nonce (chachaEncrypt key nonce m) = some m := by
  have hlen : (encBody key nonce 0 m).length = m.length := encBody_length key nonce m 0
  have hclen : (chachaEncrypt key nonce m).length = m.length + TAG_SIZE := by
    simp [chachaEncrypt, polyTag, hlen]
  have hnotlt : ¬ (chachaEncrypt key nonce m).length < TAG_SIZE := by
    rw [hclen]; omega
  have hsub : (chachaEncrypt key nonce m).length - TAG_SIZE = m.length := by
    rw [hclen]; omega
  have htake : (chachaEncrypt key nonce m).take m.length = encBody key nonce 0 m := by
    rw [chachaEncrypt]; exact List.take_left' hlen
  have hdrop : (chachaEncrypt key nonce m).drop m.length = polyTag key nonce m := by
    rw [chachaEncrypt]; exact List.drop_left' hlen
  rw [chachaDecrypt, if_neg hnotlt]
  simp only [hsub, htake, hdrop, decBody_encBody]
  simp

/-- Claim C3: codec round-trip — for every directory tree `d` and key
`key` (and any nonce, modelling the random nonce generation),
`Inner.load` applied to `pack_state key nonce d` succeeds and produces a
Working Copy whose directory has exactly the relative file paths and byte
contents of `d` (here literally `d` itself), with a clear dirty flag. -/
theorem c3_codec_roundtrip (key nonce version : Nat) (d : DirTree) :
    Inner.load key version (pack_state key nonce d) =
      .ok { version := version, dir := d, dirtied := false } := by
  have hn : (nonceBytes nonce).length = NONCE_SIZE := by simp [nonceBytes]
  have hlong : ¬ (pack_state key nonce d).length ≤ NONCE_SIZE := by
    simp [pack_state, chachaEncrypt, polyTag, nonceBytes, NONCE_SIZE, TAG_SIZE]
  have htake : (pack_state key nonce d).take NONCE_SIZE = nonceBytes nonce := by
    rw [pack_state]; exact List.take_left' hn
  have hdrop : (pack_state key nonce d).drop NONCE_SIZE
      = chachaEncrypt key nonce (gzipCompress (tarPack d)) := by
    rw [pack_state]; exact List.drop_left' hn
  have hhead : (nonceBytes nonce).headD 0 = nonce := rfl
  rw [Inner.load, if_neg hlong]
  simp only [htake, hdrop, hhead, chachaDecrypt_chachaEncrypt,
    gzipDecompress_gzipCompress, tarUnpack_tarPack]

/-- Claim C1: a Reload never replaces a dirty Working Copy. The dirty flag
is re-checked inside the same exclusive critical section (`reloadArm`
models the whole `MaintenanceAction::Reload` arm, executed atomically under
the write lock): if the flag is set, the Working Copy and `seen_version`
are left unchanged regardless of the fetched blob; and the Working Copy
slot can only change while the dirty flag is false. -/
theorem c1_reload_never_replaces_dirty :
    (∀ (key : Nat) (wc : Option Inner) (i : Inner) (blob : Except SignalStateError Bytes)
        (seen v : Nat), wc = some i → i.dirtied = true →
        reloadArm key wc blob seen v = (wc, seen))
  ∧ (∀ (key : Nat) (wc : Option Inner) (blob : Except SignalStateError Bytes)
        (seen v : Nat), (reloadArm key wc blob seen v).1 ≠ wc →
        ∀ i, wc = some i → i.dirtied = false) := by
  constructor
  · intro key wc i blob seen v hw hd
    subst hw
    simp [reloadArm, hd]
  · intro key wc blob seen v hne i hw
    subst hw
    by_contra hdirty
    have hd : i.dirtied = true := by
      revert hdirty; cases i.dirtied <;> simp
    exact hne (by simp [reloadArm, hd])

/-- Witness for C1 at a concrete dirty Working Copy. -/
theorem c1_witness :
    reloadArm 0 (some ⟨5, [], true⟩) (Except.error SignalStateError.S3Error) 3 7
      = (some ⟨5, [], true⟩, 3) :=
  c1_reload_never_replaces_dirty.1 0 (some ⟨5, [], true⟩) ⟨5, [], true⟩
    (Except.error SignalStateError.S3Error) 3 7 rfl rfl

/-- Counterexample for claim C2: the shutdown check is performed at every
poll of the composite future, not only at iteration boundaries. With the
maintenance future suspended mid-Flush and the shutdown signal resolved,
the very next poll drops the maintenance future and begins cleanup, so the
in-flight Flush does not run to completion first. -/
theorem c2_counterexample : ¬ shutdownWaitsForInflight := by
  intro h
  have := h id { running := some .midFlush, cleanupBegun := false } .midFlush rfl
    (by decide) rfl
  simp [compositePoll] at this

/-- Claim C2 as amended: once the shutdown signal resolves, the next poll
of `SignalStateMaintenance` abandons the maintenance future wherever it is
suspended — including mid-Flush or mid-Reload — and polls the one-shot
cleanup step; while shutdown has not resolved, a poll only advances the
maintenance future and never begins cleanup. -/
theorem c2_amended_shutdown_at_any_poll :
    (∀ (f : MaintPos → MaintPos) (s : CompState) (p : MaintPos),
        s.running = some p →
        compositePoll true f s = { running := none, cleanupBegun := true })
  ∧ (∀ (f : MaintPos → MaintPos) (s : CompState) (p : MaintPos),
        s.running = some p →
        compositePoll false f s = { s with running := some (f p) }) := by
  constructor <;> intro f s p h <;> simp [compositePoll, h]

/-- Witness for the amended C2: shutdown mid-Flush abandons the Flush. -/
theorem c2_witness :
    compositePoll true id { running := some .midFlush, cleanupBegun := false }
      = { running := none, cleanupBegun := true } :=
  c2_amended_shutdown_at_any_poll.1 id
    { running := some .midFlush, cleanupBegun := false } .midFlush rfl

/-- Claim C4: the maintenance decision. `best_version` is the maximum
parsed version of the listing (and is `none` exactly when no key parses);
with no Working Copy and a best version the decision is Reload of that
maximum; with no Working Copy and no version the loop terminates fatally
with `NoStateAvailable`; with a dirty Working Copy it is Flush; with a
clean Working Copy whose version differs from the best it is Reload of the
best; otherwise no action. -/
theorem c4_decision :
    (∀ (keys : List String) (v : Nat), bestVersion keys = some v →
        v ∈ parsedVersions keys ∧ ∀ w ∈ parsedVersions keys, w ≤ v)
  ∧ (∀ (keys : List String), bestVersion keys = none → parsedVersions keys = [])
  ∧ (∀ (best : Option Nat) (v : Nat), best = some v →
        decideAction none best = .act (.Reload v))
  ∧ (decideAction none none = .fatal)
  ∧ (∀ (i : Inner) (best : Option Nat), i.dirtied = true →
        decideAction (some i) best = .act .Flush)
  ∧ (∀ (i : Inner) (v : Nat), i.dirtied = false → i.version ≠ v →
        decideAction (some i) (some v) = .act (.Reload v))
  ∧ (∀ (i : Inner), i.dirtied = false →
        decideAction (some i) (some i.version) = .act .NoAction)
  ∧ (∀ (i : Inner), i.dirtied = false →
        decideAction (some i) none = .act .NoAction) := by
  refine ⟨?_, ?_, ?_, ?_, ?_, ?_, ?_, ?_⟩
  · intro keys v h
    exact (List.max?_eq_some_iff (fun a => le_refl a) (fun a b => max_choice a b)
      (fun a b c => max_le_iff)).1 h
  · intro keys h
    exact List.max?_eq_none_iff.1 h
  · intro best v h; subst h; rfl
  · rfl
  · intro i best h; simp [decideAction, h]
  · intro i v h hne; simp [decideAction, h, hne]
  · intro i h; simp [decideAction, h]
  · intro i h; simp [decideAction, h]

/-- Witness for C4 at concrete inputs: an unparsable key is discarded, the
maximum is chosen, and a dirty Working Copy forces a Flush. -/
theorem c4_witness :
    decideAction none (bestVersion ["3", "x", "7"]) = .act (.Reload 7)
      ∧ decideAction (some ⟨5, [], true⟩) (some 9) = .act .Flush :=
  ⟨c4_decision.2.2.1 (bestVersion ["3", "x", "7"]) 7 (by decide),
   c4_decision.2.2.2.2.1 ⟨5, [], true⟩ (some 9) rfl⟩

/-! ## Lemmas about sequences of saves -/

theorem runSaves_replicate_true (N : Nat) :
    ∀ (V0 : Nat) (d : DirTree) (b : Bool), V0 + N < U32_MOD →
    runSaves (List.replicate N true) { version := V0, dir := d, dirtied := b }
      = ({ version := V0 + N, dir := d, dirtied := if N = 0 then b else false },
         (List.range N).map (fun j => V0 + j + 1)) := by
  induction N with
  | zero => intro V0 d b h; simp [runSaves]
  | succ n ih =>
    intro V0 d b h
    have hmod : (V0 + 1) % U32_MOD = V0 + 1 := Nat.mod_eq_of_lt (by omega)
    have hrec := ih (V0 + 1) d false (by omega)
    have hne : n + 1 ≠ 0 := by omega
    have hlist : (List.range (n + 1)).map (fun j => V0 + j + 1)
        = (V0 + 1) :: (List.range n).map (fun j => V0 + 1 + j + 1) := by
      rw [List.range_succ_eq_map, List.map_cons, List.map_map]
      simp only [Nat.add_zero]
      apply congrArg
      apply List.map_congr_left
      intro j hj
      simp only [Function.comp_apply, Nat.succ_eq_add_one]
      omega
    simp only [List.replicate_succ, runSaves, Inner.save, if_true, hmod]
    simp only [hrec, hlist, Option.toList_some, List.singleton_append,
      Prod.mk.injEq, Inner.mk.injEq, if_neg hne, ite_self]
    simp only [and_true, true_and]
    omega

theorem runSaves_append (a b : List Bool) (i : Inner) :
    runSaves (a ++ b) i
      = ((runSaves b (runSaves a i).1).1,
         (runSaves a i).2 ++ (runSaves b (runSaves a i).1).2) := by
  induction a generalizing i with
  | nil => simp [runSaves]
  | cons x xs ih => simp [runSaves, ih, List.append_assoc]

theorem runSaves_replicate_false (K : Nat) :
    ∀ (V0 : Nat) (d : DirTree) (b : Bool), V0 + K < U32_MOD →
    runSaves (List.replicate K false) { version := V0, dir := d, dirtied := b }
      = ({ version := V0 + K, dir := d, dirtied := b }, []) := by
  induction K with
  | zero => intro V0 d b h; simp [runSaves]
  | succ n ih =>
    intro V0 d b h
    have hmod : (V0 + 1) % U32_MOD = V0 + 1 := Nat.mod_eq_of_lt (by omega)
    have hrec := ih (V0 + 1) d b (by omega)
    simp only [List.replicate_succ, runSaves, Inner.save, Bool.false_eq_true,
      if_false, hmod]
    simp only [hrec, Option.toList_none, List.nil_append,
      Prod.mk.injEq, Inner.mk.injEq]
    simp only [and_true, true_and]
    omega

/-- Claim C5: version monotonicity and append-only writes. Starting from
in-memory version `V0`, a run of `N` successful flushes writes to the blob
store exactly the keys `V0+1 .. V0+N` (each present, so each written
exactly once and none overwritten), never touches any pre-existing key
`≤ V0`, and leaves the in-memory version at `V0 + N`. The hypothesis keeps
the `u32` version counter within range. -/
theorem c5_version_monotonicity (V0 N : Nat) (d : DirTree) (b : Bool)
    (h : V0 + N < U32_MOD) :
    (∀ k, k ∈ (runSaves (List.replicate N true) { version := V0, dir := d, dirtied := b }).2
        ↔ V0 + 1 ≤ k ∧ k ≤ V0 + N)
  ∧ ((runSaves (List.replicate N true) { version := V0, dir := d, dirtied := b }).2).Nodup
  ∧ (∀ k, k ≤ V0 →
      k ∉ (runSaves (List.replicate N true) { version := V0, dir := d, dirtied := b }).2)
  ∧ (runSaves (List.replicate N true) { version := V0, dir := d, dirtied := b }).1.version
      = V0 + N := by
  have hrun := runSaves_replicate_true N V0 d b h
  rw [hrun]
  refine ⟨?_, ?_, ?_, rfl⟩
  · intro k
    simp only [List.mem_map, List.mem_range]
    constructor
    · rintro ⟨j, hj, rfl⟩; omega
    · rintro ⟨h1, h2⟩; exact ⟨k - V0 - 1, by omega, by omega⟩
  · exact (List.nodup_range N).map (fun a b hab => by omega)
  · intro k hk hmem
    simp only [List.mem_map, List.mem_range] at hmem
    obtain ⟨j, hj, hjk⟩ := hmem
    omega

/-- Witness for C5: three flushes from version 10 write keys 11, 12, 13. -/
theorem c5_witness :
    (11 ∈ (runSaves (List.replicate 3 true)
        { version := 10, dir := [], dirtied := true }).2 ↔ 11 ≤ 11 ∧ 11 ≤ 13)
  ∧ (runSaves (List.replicate 3 true)
      { version := 10, dir := [], dirtied := true }).1.version = 10 + 3 :=
  ⟨(c5_version_monotonicity 10 3 [] true (by decide)).1 11,
   (c5_version_monotonicity 10 3 [] true (by decide)).2.2.2⟩

/-- Claim C6: the retention rule. A version is a deletion candidate exactly
when it parses out of the listing and lies strictly below
`seen_version - 20` (saturating); there are never any candidates when
`seen_version ≤ 20`; and with versions 1..100 present and
`seen_version = 100`, exactly versions 1..79 are deleted while 80..100 are
untouched. -/
theorem c6_retention :
    (∀ (seen : Nat) (keys : List String) (v : Nat),
        v ∈ deleteList seen keys ↔ v ∈ parsedVersions keys ∧ v < seen - 20)
  ∧ (∀ (seen : Nat) (keys : List String), seen ≤ 20 → deleteList seen keys = [])
  ∧ (deleteList 100 ((List.range 100).map (fun j => toString (j + 1)))
      = (List.range 79).map (fun j => j + 1))
  ∧ (∀ v, 80 ≤ v → v ≤ 100 →
      v ∉ deleteList 100 ((List.range 100).map (fun j => toString (j + 1)))) := by
  have hiff : ∀ (seen : Nat) (keys : List String) (v : Nat),
      v ∈ deleteList seen keys ↔ v ∈ parsedVersions keys ∧ v < seen - 20 := by
    intro seen keys v
    simp [deleteList, List.mem_filter]
  have hconc : deleteList 100 ((List.range 100).map (fun j => toString (j + 1)))
      = (List.range 79).map (fun j => j + 1) := by decide
  refine ⟨hiff, ?_, hconc, ?_⟩
  · intro seen keys h
    rw [List.eq_nil_iff_forall_not_mem]
    intro v hv
    rw [hiff] at hv
    omega
  · intro v h80 h100 hmem
    rw [hconc] at hmem
    simp only [List.mem_map, List.mem_range] at hmem
    obtain ⟨j, hj, hjv⟩ := hmem
    omega

/-- Witness for C6: with `seen_version = 20` nothing is ever deleted. -/
theorem c6_witness : deleteList 20 ["1", "2"] = [] :=
  c6_retention.2.1 20 ["1", "2"] (by decide)

/-- Claim C7: the outcome of `SignalRunner::send`. With no Working Copy
loaded it fails with `NoStateAvailable`; with a Working Copy it succeeds
exactly when the subprocess exits with status 0, fails with
`SignalFailed (some c)` on a non-zero exit code `c`, and fails with
`SignalFailed none` when the process was terminated by a signal. -/
theorem c7_send_outcome :
    (∀ (driver : Except SignalRunnerError ExitStatus),
        send none driver = .error .NoStateAvailable)
  ∧ (∀ (p : Bytes) (driver : Except SignalRunnerError ExitStatus),
        send (some p) driver = .ok () ↔ driver = .ok (.exited 0))
  ∧ (∀ (p : Bytes) (c : Int), c ≠ 0 →
        send (some p) (.ok (.exited c)) = .error (.SignalFailed (some c)))
  ∧ (∀ (p : Bytes), send (some p) (.ok .signalled)
        = .error (.SignalFailed none)) := by
  refine ⟨fun _ => rfl, ?_, ?_, fun p => rfl⟩
  · intro p driver
    match driver with
    | .error e => simp [send]
    | .ok (.exited c) =>
      by_cases hc : c = 0
      · subst hc; simp [send, ExitStatus.success]
      · simp [send, ExitStatus.success, hc]
    | .ok .signalled => simp [send, ExitStatus.success]
  · intro p c hc
    simp [send, ExitStatus.success, ExitStatus.code, hc]

/-- Witness for C7: exit code 2 maps to `SignalFailed (some 2)`. -/
theorem c7_witness :
    send (some [47]) (.ok (.exited 2))
      = .error (.SignalFailed (some 2)) :=
  c7_send_outcome.2.2.1 [47] 2 (by decide)

/-- Claim C8: the `ChildDriver` future's result is determined solely by
the exit-waiting task. Each poll returns exactly the waiter's poll, so the
combined future completes only once the exit status is available; and
varying only the writer slot (its presence or its result) leaves the
driver's result unchanged, so a writer error is never propagated. -/
theorem c8_waiter_determines_outcome :
    (∀ (W R : Type) (writer : Option (TaskPoll W)) (waiter : TaskPoll R),
        (childDriverPoll writer waiter).2 = waiter)
  ∧ (∀ (W R : Type) (w1 w2 : Option (TaskPoll W)) (waiter : TaskPoll R),
        (childDriverPoll w1 waiter).2 = (childDriverPoll w2 waiter).2)
  ∧ (∀ (W R : Type) (writer : Option (TaskPoll W)) (waiter : TaskPoll R),
        ((childDriverPoll writer waiter).2 = TaskPoll.pending
          ↔ waiter = TaskPoll.pending)) := by
  exact ⟨fun _ _ _ _ => rfl, fun _ _ _ _ _ => rfl, fun _ _ _ _ => Iff.rfl⟩

/-- Claim C9: a flush is not atomic on error with respect to the version
counter. `Inner::save` increments the version before the blob write, so
after `K` failed flush attempts the dirty flag is still set (the flush
will be retried) and no key has been written, but the counter has advanced
to `V0 + K`; the next successful flush then persists the single key
`V0 + K + 1` — `K + 1` greater than the last persisted version `V0` —
leaving the keys `V0 + 1 .. V0 + K` as unused gaps and never overwriting
an existing key `≤ V0`. -/
theorem c9_failed_flush_version_gap (V0 K : Nat) (d : DirTree)
    (h : V0 + K + 1 < U32_MOD) :
    ((runSaves (List.replicate K false) { version := V0, dir := d, dirtied := true }).1.dirtied
        = true)
  ∧ ((runSaves (List.replicate K false) { version := V0, dir := d, dirtied := true }).1.version
        = V0 + K)
  ∧ ((runSaves (List.replicate K false) { version := V0, dir := d, dirtied := true }).2 = [])
  ∧ ((runSaves (List.replicate K false ++ [true])
        { version := V0, dir := d, dirtied := true }).2 = [V0 + K + 1])
  ∧ ((runSaves (List.replicate K false ++ [true])
        { version := V0, dir := d, dirtied := true }).1.dirtied = false)
  ∧ (∀ j, 1 ≤ j → j ≤ K →
      V0 + j ∉ (runSaves (List.replicate K false ++ [true])
        { version := V0, dir := d, dirtied := true }).2)
  ∧ (∀ k, k ≤ V0 →
      k ∉ (runSaves (List.replicate K false ++ [true])
        { version := V0, dir := d, dirtied := true }).2) := by
  have hfails := runSaves_replicate_false K V0 d true (by omega)
  have hmod : (V0 + K + 1) % U32_MOD = V0 + K + 1 := Nat.mod_eq_of_lt (by omega)
  have hall : runSaves (List.replicate K false ++ [true])
      { version := V0, dir := d, dirtied := true }
      = ({ version := V0 + K + 1, dir := d, dirtied := false }, [V0 + K + 1]) := by
    rw [runSaves_append, hfails]
    simp only [runSaves, Inner.save, if_true, List.nil_append]
    simp only [hmod]
    rfl
  rw [hfails, hall]
  refine ⟨rfl, rfl, rfl, rfl, rfl, ?_, ?_⟩
  · intro j h1 hK hmem
    simp only [List.mem_singleton] at hmem
    omega
  · intro k hk hmem
    simp only [List.mem_singleton] at hmem
    omega

/-- Witness for C9: two failed flushes from version 4, then a success,
persist only key 7. -/
theorem c9_witness :
    (runSaves (List.replicate 2 false ++ [true])
      { version := 4, dir := [], dirtied := true }).2 = [7] :=
  (c9_failed_flush_version_gap 4 2 [] (by decide)).2.2.2.1

/-! ## Lemmas for C10 -/

theorem applyEvent_isSome (e : StoreEvent) (wc : Option Inner)
    (h : wc.isSome = true) : (applyEvent wc e).isSome = true := by
  cases e with
  | readerAccess => cases wc <;> simp_all [applyEvent]
  | flushAttempt ok => cases wc <;> simp_all [applyEvent]
  | reloadAttempt key blob v =>
    cases wc with
    | none => simp at h
    | some i =>
      simp only [applyEvent, reloadArm]
      split
      · simp
      · split <;> simp

theorem applyEvents_isSome (es : List StoreEvent) (wc : Option Inner)
    (h : wc.isSome = true) : (applyEvents wc es).isSome = true := by
  induction es generalizing wc with
  | nil => exact h
  | cons e es ih => exact ih (applyEvent wc e) (applyEvent_isSome e wc h)

/-- Claim C10: the `unwrap` in the Flush arm never panics. Whenever the
maintenance loop has decided Flush (which requires having observed a
loaded Working Copy), the Working Copy is still present after any sequence
of the events that can run before the write lock is acquired — reader
accesses, flush attempts and reload attempts all preserve presence, and
the cleanup step's `take` is not among them because, while the shutdown
signal is pending, a poll of the composite future never begins cleanup. -/
theorem c10_flush_unwrap_safe :
    (∀ (wc : Option Inner) (best : Option Nat) (es : List StoreEvent),
        decideAction wc best = .act .Flush → (applyEvents wc es).isSome = true)
  ∧ (∀ (f : MaintPos → MaintPos) (s : CompState) (p : MaintPos),
        s.running = some p →
        (compositePoll false f s).cleanupBegun = s.cleanupBegun) := by
  constructor
  · intro wc best es h
    apply applyEvents_isSome
    cases wc with
    | some i => rfl
    | none =>
      cases best <;> simp [decideAction] at h
  · intro f s p h
    simp [compositePoll, h]

/-- Witness for C10: after deciding Flush on a dirty Working Copy, a
reader access and a failed reload leave the Working Copy present. -/
theorem c10_witness :
    (applyEvents (some ⟨3, [], true⟩)
      [StoreEvent.readerAccess,
       StoreEvent.reloadAttempt 0 (Except.error SignalStateError.S3Error) 9]).isSome
      = true :=
  c10_flush_unwrap_safe.1 (some ⟨3, [], true⟩) (some 8)
    [StoreEvent.readerAccess,
     StoreEvent.reloadAttempt 0 (Except.error SignalStateError.S3Error) 9]
    (by decide)

end SignalPager
